import Mathlib

/-!
# Verification of the witnet-rust configuration loader (`config` crate)

Shallow embedding of `config/src/loaders/toml.rs` and of the data model it
loads into.  The loader source (`from_file`, `read_file_contents`, `from_str`,
the `Error` enum) is embedded directly from `src/config/src/loaders/toml.rs`.
The crate modules it depends on (`config::partial`, `defaults`, the
`Environment` enum from `witnet_data_structures::chain`, and the external TOML
deserialization) are not part of the given sources, so they are modelled from
the specification, as marked on each definition.
-/

namespace Witnet

/-- Modelled from the spec: the data model of the external TOML grammar
(spec §6, "table/array/scalar, compatible with TOML's data model").
Scalar and array values appearing on the right of `key = value`. -/
inductive TomlValue where
  | str (s : String)
  | int (n : Int)
  | bool (b : Bool)
  | arr (xs : List TomlValue)

/-- Modelled from the spec: a parsed TOML document, "nested key-value grammar
... with top-level key `environment` and nested tables" (spec §6): the
top-level key/value pairs and the named tables with their key/value pairs. -/
structure TomlDoc where
  top : List (String × TomlValue)
  sections : List (String × List (String × TomlValue))

/-- Whitespace characters inside a line (trimmed around keys, values and
section headers). -/
def isWsChar (c : Char) : Bool := c = ' ' || c = '\t' || c = '\r'

/-- Drop leading whitespace characters. -/
def dropWs : List Char → List Char
  | [] => []
  | c :: cs => if isWsChar c then dropWs cs else c :: cs

/-- Trim whitespace on both ends of a character list. -/
def trimWs (cs : List Char) : List Char :=
  ((dropWs ((dropWs cs).reverse)).reverse)

/-- Split a character stream into lines at newline characters. -/
def splitLinesAux : List Char → List Char → List (List Char)
  | [], acc => [acc.reverse]
  | c :: cs, acc =>
    if c = '\n' then acc.reverse :: splitLinesAux cs [] else splitLinesAux cs (c :: acc)

/-- All lines of the input. -/
def splitLines (cs : List Char) : List (List Char) := splitLinesAux cs []

/-- Split a character list at the first occurrence of `ch`; `none` when `ch`
does not occur. -/
def splitFirst (ch : Char) : List Char → Option (List Char × List Char)
  | [] => none
  | c :: cs =>
    if c = ch then some ([], cs)
    else (splitFirst ch cs).map fun p => (c :: p.1, p.2)

/-- Characters allowed in a bare TOML key or section name. -/
def isBareKeyChar (c : Char) : Bool := c.isAlphanum || c = '_' || c = '-'

/-- Numeric value of a digit string. -/
def digitsToNat (cs : List Char) : Nat :=
  cs.foldl (fun n c => n * 10 + (c.toNat - 48)) 0

/-- Modelled from the spec: parsing of a scalar TOML value (string, integer,
boolean) by the external TOML library (spec §6). -/
def parseScalar (cs : List Char) : Except String TomlValue :=
  if String.mk cs = "true" then .ok (.bool true)
  else if String.mk cs = "false" then .ok (.bool false)
  else
    match cs with
    | '\'' :: rest =>
      if rest.getLast? = some '\'' then .ok (.str (String.mk rest.dropLast))
      else .error "unterminated string"
    | '"' :: rest =>
      if rest.getLast? = some '"' then .ok (.str (String.mk rest.dropLast))
      else .error "unterminated string"
    | '-' :: rest =>
      if rest ≠ [] && rest.all Char.isDigit then .ok (.int (-(digitsToNat rest : Int)))
      else .error "invalid value"
    | _ =>
      if cs ≠ [] && cs.all Char.isDigit then .ok (.int (digitsToNat cs))
      else .error "invalid value"

/-- Split a character list into comma-separated pieces. -/
def splitCommasAux : List Char → List Char → List (List Char)
  | [], acc => [acc.reverse]
  | c :: cs, acc =>
    if c = ',' then acc.reverse :: splitCommasAux cs [] else splitCommasAux cs (c :: acc)

/-- Modelled from the spec: parsing of a TOML value, either an array of
scalars or a single scalar (spec §6: "table/array/scalar"). -/
def parseValue (cs : List Char) : Except String TomlValue :=
  match cs with
  | '[' :: rest =>
    if rest.getLast? = some ']' then
      let mid := trimWs rest.dropLast
      if mid = [] then .ok (.arr [])
      else ((splitCommasAux mid []).mapM fun p => parseScalar (trimWs p)).map .arr
    else .error "unterminated array"
  | _ => parseScalar cs

/-- One line of TOML input: blank (or comment), a `[section]` header, or a
`key = value` pair. -/
inductive Line where
  | blank
  | header (name : String)
  | kv (key : String) (val : TomlValue)

/-- Modelled from the spec: line-level parsing of the TOML grammar consumed
by the Loader Adapter (spec §6). -/
def parseLine (cs : List Char) : Except String Line :=
  match trimWs cs with
  | [] => .ok .blank
  | '#' :: _ => .ok .blank
  | '[' :: rest =>
    if rest.getLast? = some ']' then
      let name := trimWs rest.dropLast
      if name ≠ [] && name.all isBareKeyChar then .ok (.header (String.mk name))
      else .error "malformed section header"
    else .error "malformed section header"
  | t =>
    match splitFirst '=' t with
    | none => .error "expected key-value pair"
    | some (k, v) =>
      let key := trimWs k
      if key ≠ [] && key.all isBareKeyChar then
        (parseValue (trimWs v)).map (.kv (String.mk key))
      else .error "malformed key"

/-- Document-building state: top-level pairs (reversed), finished sections
(reversed), and the section currently open (its pairs reversed). -/
structure BuildSt where
  top : List (String × TomlValue)
  done : List (String × List (String × TomlValue))
  cur : Option (String × List (String × TomlValue))

/-- Close the currently open section, if any. -/
def flushCur (st : BuildSt) : List (String × List (String × TomlValue)) :=
  match st.cur with
  | none => st.done
  | some s => (s.1, s.2.reverse) :: st.done

/-- Fold one parsed line into the document-building state. -/
def stepLine (st : BuildSt) (l : Line) : BuildSt :=
  match l with
  | .blank => st
  | .header n => { top := st.top, done := flushCur st, cur := some (n, []) }
  | .kv k v =>
    match st.cur with
    | none => { st with top := (k, v) :: st.top }
    | some s => { st with cur := some (s.1, (k, v) :: s.2) }

/-- Finish document building: restore textual order. -/
def finishDoc (st : BuildSt) : TomlDoc :=
  { top := st.top.reverse, sections := (flushCur st).reverse }

/-- Modelled from the spec: the external TOML library's text-to-document
parse (spec §6; the library itself is an out-of-scope collaborator, specified
only at this boundary). -/
def tomlParse (s : String) : Except String TomlDoc := do
  let ls ← (splitLines s.data).mapM parseLine
  .ok (finishDoc (ls.foldl stepLine ⟨[], [], none⟩))

/-- Modelled from the spec: `witnet_data_structures::chain::Environment`
(not under `src/`): an enumerated value among Mainnet, Testnet1, ...
(spec §3); tokens "mainnet", "testnet-1" (spec §4.1). -/
inductive Environment where
  | Mainnet
  | Testnet1
deriving DecidableEq, Repr

/-- Modelled from the spec: deserialization of the `environment` enumerated
token (spec §4.1): finite set of accepted tokens, any other token is an
unknown-environment parse error. -/
def envOfString : String → Except String Environment
  | "mainnet" => .ok .Mainnet
  | "testnet-1" => .ok .Testnet1
  | s => .error ("unknown environment " ++ s)

/-- Modelled from the spec: `std::net::SocketAddr` as used by the
configuration: a network address in textual `host:port` form (spec §4.1). -/
structure SockAddr where
  host : String
  port : Nat
deriving DecidableEq, Repr

/-- Modelled from the spec: parsing of a network address in `host:port` form;
parse failure is an invalid-address error (spec §4.1).  The port is the
digits after the last colon. -/
def parseSockAddr (s : String) : Except String SockAddr :=
  match splitFirst ':' s.data.reverse with
  | none => .error ("invalid socket address " ++ s)
  | some p =>
    let host := p.2.reverse
    let port := p.1.reverse
    if host ≠ [] && port ≠ [] && port.all Char.isDigit && digitsToNat port < 65536 then
      .ok ⟨String.mk host, digitsToNat port⟩
    else .error ("invalid socket address " ++ s)

/-- Modelled from the spec: `std::time::Duration` as used by the
configuration — "a canonical time-duration semantic type, not ... raw
integers" (spec §3); only whole seconds are produced (spec §4.1). -/
structure Duration where
  secs : Nat
deriving DecidableEq, Repr

/-- `std::time::Duration::from_secs`. -/
def Duration.from_secs (n : Nat) : Duration := ⟨n⟩

/-- Modelled from the spec: the `connections` section of
`config::partial::Config` (not under `src/`): every field optional —
server bind address, inbound connection limit, list of known peer addresses,
and the three period/timeout durations (spec §3).  Field names and the
`_seconds` wire keys follow the loader tests in `toml.rs`. -/
structure Connections where
  server_addr : Option SockAddr := none
  inbound_limit : Option Nat := none
  known_peers : List SockAddr := []
  bootstrap_peers_period : Option Duration := none
  storage_peers_period : Option Duration := none
  handshake_timeout : Option Duration := none
deriving DecidableEq, Repr

/-- `Connections::default()`: the no-field-set value (spec §4.2). -/
def Connections.default : Connections := {}

/-- Modelled from the spec: the `storage` section of
`config::partial::Config`: optional database path (spec §3); paths are
opaque strings, no existence check (spec §4.1). -/
structure Storage where
  db_path : Option String := none
deriving DecidableEq, Repr

/-- `Storage::default()`: the no-field-set value (spec §4.2). -/
def Storage.default : Storage := {}

/-- Modelled from the spec: the `jsonrpc` section of
`config::partial::Config`: optional enabled flag, optional server bind
address (spec §3). -/
structure JsonRPC where
  enabled : Option Bool := none
  server_address : Option SockAddr := none
deriving DecidableEq, Repr

/-- `JsonRPC::default()`: the no-field-set value (spec §4.2). -/
def JsonRPC.default : JsonRPC := {}

/-- Modelled from the spec: `config::partial::Config` (not under `src/`),
the root of the loaded configuration tree (spec §3).  Per the loader tests
in `toml.rs`, `environment` is a plain `Environment` value (compared without
unwrapping) while the sections hold the optional fields. -/
structure Config where
  environment : Environment := Environment.Mainnet
  connections : Connections := {}
  storage : Storage := {}
  jsonrpc : JsonRPC := {}
deriving DecidableEq, Repr

/-- `Config::default()`: the fully-absent configuration, to which the loader
tests compare the result of parsing empty input. -/
def Config.default : Config := {}

/-- Decode a TOML value as a non-negative integer (inbound limits, seconds). -/
def natOfToml : TomlValue → Except String Nat
  | .int n => if n < 0 then .error "invalid value: negative integer" else .ok n.toNat
  | _ => .error "invalid type: expected integer"

/-- Decode a TOML value as a string. -/
def strOfToml : TomlValue → Except String String
  | .str s => .ok s
  | _ => .error "invalid type: expected string"

/-- Decode a TOML value as a boolean. -/
def boolOfToml : TomlValue → Except String Bool
  | .bool b => .ok b
  | _ => .error "invalid type: expected boolean"

/-- Decode a TOML value as a socket address (given as a string). -/
def sockAddrOfToml (v : TomlValue) : Except String SockAddr :=
  strOfToml v >>= parseSockAddr

/-- Decode a TOML value as a list of socket addresses. -/
def sockAddrListOfToml : TomlValue → Except String (List SockAddr)
  | .arr xs => xs.mapM sockAddrOfToml
  | _ => .error "invalid type: expected array"

/-- Modelled from the spec: deserialization of one field of the
`connections` section; unknown fields are a hard parse error (spec §6,
strict schema), the `_seconds` integer keys are converted to durations
(spec §4.1). -/
def decodeConnectionsField (c : Connections) (kv : String × TomlValue) :
    Except String Connections :=
  if kv.1 = "server_addr" then
    (sockAddrOfToml kv.2).map fun a => { c with server_addr := some a }
  else if kv.1 = "inbound_limit" then
    (natOfToml kv.2).map fun n => { c with inbound_limit := some n }
  else if kv.1 = "known_peers" then
    (sockAddrListOfToml kv.2).map fun l => { c with known_peers := l }
  else if kv.1 = "bootstrap_peers_period_seconds" then
    (natOfToml kv.2).map fun n => { c with bootstrap_peers_period := some (Duration.from_secs n) }
  else if kv.1 = "storage_peers_period_seconds" then
    (natOfToml kv.2).map fun n => { c with storage_peers_period := some (Duration.from_secs n) }
  else if kv.1 = "handshake_timeout_seconds" then
    (natOfToml kv.2).map fun n => { c with handshake_timeout := some (Duration.from_secs n) }
  else .error ("unknown field " ++ kv.1)

/-- Modelled from the spec: deserialization of one field of the `storage`
section; unknown fields are a hard parse error (spec §6). -/
def decodeStorageField (c : Storage) (kv : String × TomlValue) :
    Except String Storage :=
  if kv.1 = "db_path" then
    (strOfToml kv.2).map fun p => { c with db_path := some p }
  else .error ("unknown field " ++ kv.1)

/-- Modelled from the spec: deserialization of one field of the `jsonrpc`
section; unknown fields are a hard parse error (spec §6). -/
def decodeJsonRPCField (c : JsonRPC) (kv : String × TomlValue) :
    Except String JsonRPC :=
  if kv.1 = "enabled" then
    (boolOfToml kv.2).map fun b => { c with enabled := some b }
  else if kv.1 = "server_address" then
    (sockAddrOfToml kv.2).map fun a => { c with server_address := some a }
  else .error ("unknown field " ++ kv.1)

/-- Modelled from the spec: deserialization of one top-level key of the
document.  The only scalar top-level key is `environment`; any other
top-level key is a hard parse error (spec §6). -/
def decodeTopField (c : Config) (kv : String × TomlValue) : Except String Config :=
  if kv.1 = "environment" then
    (strOfToml kv.2 >>= envOfString).map fun e => { c with environment := e }
  else .error ("unknown field " ++ kv.1)

/-- Modelled from the spec: deserialization of one named table into its
configuration section; unknown tables are a hard parse error (spec §6). -/
def decodeSection (c : Config) (sec : String × List (String × TomlValue)) :
    Except String Config :=
  if sec.1 = "connections" then
    (sec.2.foldlM decodeConnectionsField c.connections).map fun x => { c with connections := x }
  else if sec.1 = "storage" then
    (sec.2.foldlM decodeStorageField c.storage).map fun x => { c with storage := x }
  else if sec.1 = "jsonrpc" then
    (sec.2.foldlM decodeJsonRPCField c.jsonrpc).map fun x => { c with jsonrpc := x }
  else .error ("unknown section " ++ sec.1)

/-- Modelled from the spec: deserialization of a whole TOML document into
the configuration value, starting from the fully-absent configuration
(absent keys keep their absent defaults, spec §3 invariants). -/
def decodeDoc (d : TomlDoc) : Except String Config := do
  let c ← d.top.foldlM decodeTopField Config.default
  d.sections.foldlM decodeSection c

/-- Modelled from the spec: `toml::from_str` of the external toml crate
specialized to the configuration type: text-to-document parse followed by
deserialization, both failures being `toml::de::Error`s (spec §6, §7). -/
def toml.from_str (contents : String) : Except String Config :=
  tomlParse contents >>= decodeDoc

/-- The `Error` enum of `config/src/loaders/toml.rs`: an `IOError` wraps the
underlying I/O failure, a `ParseError` wraps the `toml::de::Error`.  Both
failure details are modelled as their display strings. -/
inductive Error where
  | IOError (e : String)
  | ParseError (e : String)
deriving DecidableEq, Repr

/-- `from_str` of `config/src/loaders/toml.rs`: "Load configuration from a
string written in Toml format" — `toml::from_str(contents)` with the error
mapped to `Error::ParseError`. -/
def from_str (contents : String) : Except Error Config :=
  (toml.from_str contents).mapError Error.ParseError

/-- The file system seen by `read_file_contents`: what reading each path
yields, either the file's text or an I/O error. -/
def FileSys : Type := String → Except String String

/-- `read_file_contents` of `config/src/loaders/toml.rs`: open the file and
read its whole contents into the (initially empty) buffer. -/
def read_file_contents (fs : FileSys) (file : String) : Except String String :=
  fs file

/-- `from_file` of `config/src/loaders/toml.rs`: "Load configuration from a
file written in Toml format" — read the file's contents (failure mapped to
`Error::IOError`), then delegate to `from_str`. -/
def from_file (fs : FileSys) (file : String) : Except Error Config :=
  match read_file_contents fs file with
  | .error e => .error (Error.IOError e)
  | .ok contents => from_str contents

/-- Modelled from the spec: the fully-populated `connections` section of the
Resolved Configuration — "no optional fields ... every field is populated"
(spec §3). -/
structure ConnectionsCfg where
  server_addr : SockAddr
  inbound_limit : Nat
  known_peers : List SockAddr
  bootstrap_peers_period : Duration
  storage_peers_period : Duration
  handshake_timeout : Duration
deriving DecidableEq, Repr

/-- Modelled from the spec: the fully-populated `storage` section of the
Resolved Configuration (spec §3). -/
structure StorageCfg where
  db_path : String
deriving DecidableEq, Repr

/-- Modelled from the spec: the fully-populated `jsonrpc` section of the
Resolved Configuration (spec §3). -/
structure JsonRPCCfg where
  enabled : Bool
  server_address : SockAddr
deriving DecidableEq, Repr

/-- Modelled from the spec: the Resolved Configuration (spec §3, glossary):
the fully-populated tree handed to the application after merging with
defaults. -/
structure Configuration where
  environment : Environment
  connections : ConnectionsCfg
  storage : StorageCfg
  jsonrpc : JsonRPCCfg
deriving DecidableEq, Repr

namespace Defaults

/-! Modelled from the spec: the Default Provider (`defaults` module, not
under `src/`), "a stateless function returning the single canonical default
value for each field" (spec §4.3).  The spec fixes the environment default
(Mainnet), the shape of the rest (a positive inbound limit, an empty peer
list, three distinct positive-second durations, a fixed relative path, the
enabled flag true, a fixed loopback address), but not the remaining literal
constants; the constants below are representative values satisfying those
constraints. -/

/-- Default environment: Mainnet (spec §4.3). -/
def environment : Environment := Environment.Mainnet

/-- Default server bind address: a fixed loopback address and port. -/
def server_addr : SockAddr := ⟨"127.0.0.1", 21337⟩

/-- Default inbound connection limit: a positive integer constant. -/
def inbound_limit : Nat := 128

/-- Default known peers: the empty sequence (spec §3, §4.3). -/
def known_peers : List SockAddr := []

/-- Default bootstrap-peers period: a positive number of seconds. -/
def bootstrap_peers_period : Duration := Duration.from_secs 5

/-- Default storage-peers period: a positive number of seconds. -/
def storage_peers_period : Duration := Duration.from_secs 30

/-- Default handshake timeout: a positive number of seconds. -/
def handshake_timeout : Duration := Duration.from_secs 20

/-- Default database path: a fixed relative path string. -/
def db_path : String := ".witnet"

/-- Default JSON-RPC enabled flag: true (spec §4.3). -/
def jsonrpc_enabled : Bool := true

/-- Default JSON-RPC server address: a fixed loopback address and port. -/
def jsonrpc_server_address : SockAddr := ⟨"127.0.0.1", 21338⟩

/-- Modelled from the spec: the Configuration in which every field equals
its documented default (spec §4.3, §8). -/
def configuration : Configuration :=
  { environment := environment
    connections :=
      { server_addr := server_addr
        inbound_limit := inbound_limit
        known_peers := known_peers
        bootstrap_peers_period := bootstrap_peers_period
        storage_peers_period := storage_peers_period
        handshake_timeout := handshake_timeout }
    storage := { db_path := db_path }
    jsonrpc := { enabled := jsonrpc_enabled, server_address := jsonrpc_server_address } }

end Defaults

/-- Modelled from the spec: the Resolver (spec §4.4) — for every field, use
the present value, otherwise the Default Provider's value; per-field
independent, total, pure. -/
def resolve (c : Config) : Configuration :=
  { environment := c.environment
    connections :=
      { server_addr := c.connections.server_addr.getD Defaults.server_addr
        inbound_limit := c.connections.inbound_limit.getD Defaults.inbound_limit
        known_peers := c.connections.known_peers
        bootstrap_peers_period :=
          c.connections.bootstrap_peers_period.getD Defaults.bootstrap_peers_period
        storage_peers_period :=
          c.connections.storage_peers_period.getD Defaults.storage_peers_period
        handshake_timeout := c.connections.handshake_timeout.getD Defaults.handshake_timeout }
    storage := { db_path := c.storage.db_path.getD Defaults.db_path }
    jsonrpc :=
      { enabled := c.jsonrpc.enabled.getD Defaults.jsonrpc_enabled
        server_address := c.jsonrpc.server_address.getD Defaults.jsonrpc_server_address } }

/-- A loaded `Config` counts as fully resolved when none of its optional
fields is absent — the defining property of the Resolved Configuration
(spec §3: "no optional fields ... every field is populated"). -/
def IsFullyResolved (c : Config) : Prop :=
  c.connections.server_addr.isSome ∧ c.connections.inbound_limit.isSome ∧
  c.connections.bootstrap_peers_period.isSome ∧ c.connections.storage_peers_period.isSome ∧
  c.connections.handshake_timeout.isSome ∧ c.storage.db_path.isSome ∧
  c.jsonrpc.enabled.isSome ∧ c.jsonrpc.server_address.isSome

/-- The keys the strict schema accepts at the top level of the document
(spec §6): the only scalar top-level key is `environment`. -/
def allowedTopKey (k : String) : Bool := k = "environment"

/-- The table names the strict schema accepts (spec §6). -/
def allowedSection (k : String) : Bool :=
  k = "connections" || k = "storage" || k = "jsonrpc"

/-- The fields the strict schema accepts inside each named table (spec §3,
§6). -/
def allowedField (sec k : String) : Bool :=
  if sec = "connections" then
    k = "server_addr" || k = "inbound_limit" || k = "known_peers" ||
    k = "bootstrap_peers_period_seconds" || k = "storage_peers_period_seconds" ||
    k = "handshake_timeout_seconds"
  else if sec = "storage" then k = "db_path"
  else if sec = "jsonrpc" then k = "enabled" || k = "server_address"
  else false

/-! ## Helper lemmas about the decoding folds -/

/-- A fold over `Except` fails whenever the list contains an element on
which the step function fails from every state. -/
theorem foldlM_error_of_mem {α σ : Type} (f : σ → α → Except String σ) :
    ∀ (l : List α) (a : α), a ∈ l → (∀ s, ∃ e, f s a = .error e) →
    ∀ s, ∃ e, l.foldlM f s = .error e := by
  intro l
  induction l with
  | nil => intro a ha; exact absurd ha (List.not_mem_nil a)
  | cons hd tl ih =>
    intro a ha herr s
    rcases List.mem_cons.mp ha with h | h
    · subst h
      rcases herr s with ⟨e, he⟩
      refine ⟨e, ?_⟩
      rw [List.foldlM_cons, he]
      rfl
    · cases hf : f s hd with
      | error e =>
        refine ⟨e, ?_⟩
        rw [List.foldlM_cons, hf]
        rfl
      | ok s' =>
        rcases ih a h herr s' with ⟨e, he⟩
        refine ⟨e, ?_⟩
        rw [List.foldlM_cons, hf]
        exact he

/-- If the top-level fold succeeds on a list with no `environment` key, the
list contributed nothing: every other top-level key is rejected. -/
theorem topFold_ok_of_no_env (l : List (String × TomlValue))
    (h : ∀ v, ("environment", v) ∉ l) (c c' : Config)
    (hok : l.foldlM decodeTopField c = .ok c') : c' = c := by
  cases l with
  | nil =>
    rw [List.foldlM_nil] at hok
    exact (Except.ok.inj hok).symm
  | cons hd tl =>
    by_cases hk : hd.1 = "environment"
    · exfalso
      apply h hd.2
      have heq : ("environment", hd.2) = hd := by
        cases hd
        simp_all
      rw [heq]
      exact List.mem_cons_self _ _
    · rw [List.foldlM_cons] at hok
      rw [show decodeTopField c hd = .error ("unknown field " ++ hd.1) from if_neg hk] at hok
      exact Except.noConfusion hok

/-- Decoding a named table never changes the `environment` field. -/
theorem decodeSection_environment (c : Config) (sec : String × List (String × TomlValue))
    (c' : Config) (hok : decodeSection c sec = .ok c') : c'.environment = c.environment := by
  unfold decodeSection at hok
  split_ifs at hok with h1 h2 h3
  · cases hf : sec.2.foldlM decodeConnectionsField c.connections with
    | error e => rw [hf] at hok; exact Except.noConfusion hok
    | ok x => rw [hf] at hok; cases Except.ok.inj hok; rfl
  · cases hf : sec.2.foldlM decodeStorageField c.storage with
    | error e => rw [hf] at hok; exact Except.noConfusion hok
    | ok x => rw [hf] at hok; cases Except.ok.inj hok; rfl
  · cases hf : sec.2.foldlM decodeJsonRPCField c.jsonrpc with
    | error e => rw [hf] at hok; exact Except.noConfusion hok
    | ok x => rw [hf] at hok; cases Except.ok.inj hok; rfl

/-- Decoding a table that is not `connections` never changes the
`connections` section. -/
theorem decodeSection_connections_of_ne (c : Config) (sec : String × List (String × TomlValue))
    (c' : Config) (hne : sec.1 ≠ "connections") (hok : decodeSection c sec = .ok c') :
    c'.connections = c.connections := by
  unfold decodeSection at hok
  split_ifs at hok with h1 h2 h3
  · exact absurd h1 hne
  · cases hf : sec.2.foldlM decodeStorageField c.storage with
    | error e => rw [hf] at hok; exact Except.noConfusion hok
    | ok x => rw [hf] at hok; cases Except.ok.inj hok; rfl
  · cases hf : sec.2.foldlM decodeJsonRPCField c.jsonrpc with
    | error e => rw [hf] at hok; exact Except.noConfusion hok
    | ok x => rw [hf] at hok; cases Except.ok.inj hok; rfl

/-- The sections fold never changes the `environment` field. -/
theorem sectionsFold_environment :
    ∀ (l : List (String × List (String × TomlValue))) (c c' : Config),
      l.foldlM decodeSection c = .ok c' → c'.environment = c.environment := by
  intro l
  induction l with
  | nil =>
    intro c c' hok
    rw [List.foldlM_nil] at hok
    rw [Except.ok.inj hok]
  | cons hd tl ih =>
    intro c c' hok
    rw [List.foldlM_cons] at hok
    cases hf : decodeSection c hd with
    | error e => rw [hf] at hok; exact Except.noConfusion hok
    | ok c1 =>
      rw [hf] at hok
      exact (ih c1 c' hok).trans (decodeSection_environment c hd c1 hf)

/-- The sections fold leaves `connections` untouched when no `connections`
table occurs. -/
theorem sectionsFold_connections_of_absent :
    ∀ (l : List (String × List (String × TomlValue))),
      (∀ sec ∈ l, sec.1 ≠ "connections") → ∀ (c c' : Config),
      l.foldlM decodeSection c = .ok c' → c'.connections = c.connections := by
  intro l
  induction l with
  | nil =>
    intro _ c c' hok
    rw [List.foldlM_nil] at hok
    rw [Except.ok.inj hok]
  | cons hd tl ih =>
    intro habs c c' hok
    rw [List.foldlM_cons] at hok
    cases hf : decodeSection c hd with
    | error e => rw [hf] at hok; exact Except.noConfusion hok
    | ok c1 =>
      rw [hf] at hok
      have h1 : c1.connections = c.connections :=
        decodeSection_connections_of_ne c hd c1 (habs hd (List.mem_cons_self _ _)) hf
      have h2 : c'.connections = c1.connections :=
        ih (fun sec hs => habs sec (List.mem_cons_of_mem _ hs)) c1 c' hok
      exact h2.trans h1

/-- A successful document decode splits into a successful top-level fold
followed by a successful sections fold. -/
theorem decodeDoc_ok_split (d : TomlDoc) (c : Config) (h : decodeDoc d = .ok c) :
    ∃ c1, d.top.foldlM decodeTopField Config.default = .ok c1 ∧
      d.sections.foldlM decodeSection c1 = .ok c := by
  unfold decodeDoc at h
  cases htop : d.top.foldlM decodeTopField Config.default with
  | error e => rw [htop] at h; exact Except.noConfusion h
  | ok c1 =>
    rw [htop] at h
    exact ⟨c1, rfl, h⟩

/-- `from_str` succeeds exactly when the underlying `toml::from_str`
succeeds, with the same configuration. -/
theorem from_str_ok_iff (s : String) (c : Config) :
    from_str s = .ok c ↔ toml.from_str s = .ok c := by
  unfold from_str Except.mapError
  cases toml.from_str s <;> simp

/-- `from_str` wraps every failure of the underlying `toml::from_str` in
`Error::ParseError`. -/
theorem from_str_error_of (s : String) (h : ∃ e, toml.from_str s = .error e) :
    ∃ e, from_str s = .error (.ParseError e) := by
  rcases h with ⟨e, he⟩
  exact ⟨e, by unfold from_str; rw [he]; rfl⟩

/-- After a successful text-to-document parse, `toml::from_str` is document
decoding. -/
theorem toml_from_str_doc (s : String) (d : TomlDoc) (h : tomlParse s = .ok d) :
    toml.from_str s = decodeDoc d := by
  unfold toml.from_str
  rw [h]
  rfl



/-- Decoding a top-level key never changes the `connections` section. -/
theorem decodeTopField_connections (c : Config) (kv : String × TomlValue) (c' : Config)
    (hok : decodeTopField c kv = .ok c') : c'.connections = c.connections := by
  unfold decodeTopField at hok
  split_ifs at hok with h1
  cases he : strOfToml kv.2 >>= envOfString with
  | error e => rw [he] at hok; exact Except.noConfusion hok
  | ok x => rw [he] at hok; cases Except.ok.inj hok; rfl

/-- The top-level fold never changes the `connections` section. -/
theorem topFold_connections :
    ∀ (l : List (String × TomlValue)) (c c' : Config),
      l.foldlM decodeTopField c = .ok c' → c'.connections = c.connections := by
  intro l
  induction l with
  | nil =>
    intro c c' hok
    rw [List.foldlM_nil] at hok
    rw [Except.ok.inj hok]
  | cons hd tl ih =>
    intro c c' hok
    rw [List.foldlM_cons] at hok
    cases hf : decodeTopField c hd with
    | error e => rw [hf] at hok; exact Except.noConfusion hok
    | ok c1 =>
      rw [hf] at hok
      exact (ih c1 c' hok).trans (decodeTopField_connections c hd c1 hf)

/-- A table outside the strict schema is rejected from every state. -/
theorem decodeSection_error_of_not_allowed (sec : String × List (String × TomlValue))
    (h : allowedSection sec.1 = false) (c : Config) :
    ∃ e, decodeSection c sec = .error e := by
  simp [allowedSection] at h
  obtain ⟨⟨h1, h2⟩, h3⟩ := h
  refine ⟨"unknown section " ++ sec.1, ?_⟩
  unfold decodeSection
  rw [if_neg h1, if_neg h2, if_neg h3]

/-- A `connections` field outside the strict schema is rejected from every
state. -/
theorem decodeConnectionsField_error_of_bad (kv : String × TomlValue)
    (h : allowedField "connections" kv.1 = false) (x : Connections) :
    ∃ e, decodeConnectionsField x kv = .error e := by
  simp [allowedField] at h
  obtain ⟨⟨⟨⟨⟨h1, h2⟩, h3⟩, h4⟩, h5⟩, h6⟩ := h
  refine ⟨"unknown field " ++ kv.1, ?_⟩
  unfold decodeConnectionsField
  rw [if_neg h1, if_neg h2, if_neg h3, if_neg h4, if_neg h5, if_neg h6]

/-- A `storage` field outside the strict schema is rejected from every
state. -/
theorem decodeStorageField_error_of_bad (kv : String × TomlValue)
    (h : allowedField "storage" kv.1 = false) (x : Storage) :
    ∃ e, decodeStorageField x kv = .error e := by
  simp [allowedField] at h
  refine ⟨"unknown field " ++ kv.1, ?_⟩
  unfold decodeStorageField
  rw [if_neg h]

/-- A `jsonrpc` field outside the strict schema is rejected from every
state. -/
theorem decodeJsonRPCField_error_of_bad (kv : String × TomlValue)
    (h : allowedField "jsonrpc" kv.1 = false) (x : JsonRPC) :
    ∃ e, decodeJsonRPCField x kv = .error e := by
  simp [allowedField] at h
  obtain ⟨h1, h2⟩ := h
  refine ⟨"unknown field " ++ kv.1, ?_⟩
  unfold decodeJsonRPCField
  rw [if_neg h1, if_neg h2]

/-- A table containing a field outside the strict schema is rejected from
every state. -/
theorem decodeSection_error_of_bad_field (sec : String × List (String × TomlValue))
    (kv : String × TomlValue) (hkv : kv ∈ sec.2)
    (h : allowedField sec.1 kv.1 = false) (c : Config) :
    ∃ e, decodeSection c sec = .error e := by
  by_cases hc : sec.1 = "connections"
  · rcases foldlM_error_of_mem decodeConnectionsField sec.2 kv hkv
      (fun x => decodeConnectionsField_error_of_bad kv (hc ▸ h) x) c.connections with ⟨e, he⟩
    refine ⟨e, ?_⟩
    unfold decodeSection
    rw [if_pos hc, he]
    rfl
  · by_cases hs : sec.1 = "storage"
    · rcases foldlM_error_of_mem decodeStorageField sec.2 kv hkv
        (fun x => decodeStorageField_error_of_bad kv (hs ▸ h) x) c.storage with ⟨e, he⟩
      refine ⟨e, ?_⟩
      unfold decodeSection
      rw [if_neg hc, if_pos hs, he]
      rfl
    · by_cases hj : sec.1 = "jsonrpc"
      · rcases foldlM_error_of_mem decodeJsonRPCField sec.2 kv hkv
          (fun x => decodeJsonRPCField_error_of_bad kv (hj ▸ h) x) c.jsonrpc with ⟨e, he⟩
        refine ⟨e, ?_⟩
        unfold decodeSection
        rw [if_neg hc, if_neg hs, if_pos hj, he]
        rfl
      · exact decodeSection_error_of_not_allowed sec (by simp [allowedSection, hc, hs, hj]) c

/-- Document decoding fails when the top-level fold fails. -/
theorem decodeDoc_error_of_top (d : TomlDoc)
    (h : ∃ e, d.top.foldlM decodeTopField Config.default = .error e) :
    ∃ e, decodeDoc d = .error e := by
  rcases h with ⟨e, he⟩
  refine ⟨e, ?_⟩
  unfold decodeDoc
  rw [he]
  rfl

/-- Document decoding fails when the sections fold fails from every
state. -/
theorem decodeDoc_error_of_sections (d : TomlDoc)
    (h : ∀ c, ∃ e, d.sections.foldlM decodeSection c = .error e) :
    ∃ e, decodeDoc d = .error e := by
  unfold decodeDoc
  cases htop : d.top.foldlM decodeTopField Config.default with
  | error e => exact ⟨e, rfl⟩
  | ok c1 =>
    rcases h c1 with ⟨e, he⟩
    exact ⟨e, he⟩


/-! ## The claims -/

/-- C1: parsing the empty string succeeds and yields the fully-absent
default configuration, and resolving that default configuration gives the
all-defaults resolved Configuration. -/
theorem claim1_empty_input :
    from_str "" = .ok Config.default ∧ resolve Config.default = Defaults.configuration :=
  ⟨rfl, rfl⟩

/-- C2 counterexample: it is false that every successful `from_str` result
is a fully-resolved Configuration — on empty input the result is the
default loaded configuration, whose optional fields are all absent. -/
theorem claim2_counterexample :
    ¬ (∀ (s : String) (c : Config), from_str s = .ok c → IsFullyResolved c) := by
  intro h
  have hres := h "" Config.default rfl
  rcases hres with ⟨h1, -⟩
  simp [Config.default, Connections.default] at h1

/-- C2 (amended): on success `from_str` returns exactly the deserialized
configuration of the Loader Adapter, with no resolver chained: when the
input has no `connections` table, the whole `connections` section of the
result is still the fully-absent default. -/
theorem claim2_loader_returns_unresolved (s : String) (c : Config) (d : TomlDoc)
    (hok : from_str s = .ok c) (hd : tomlParse s = .ok d)
    (habs : ∀ kvs, ("connections", kvs) ∉ d.sections) :
    toml.from_str s = .ok c ∧ c.connections = Connections.default := by
  have htoml : toml.from_str s = .ok c := (from_str_ok_iff s c).mp hok
  refine ⟨htoml, ?_⟩
  have hdoc : decodeDoc d = .ok c := by rw [← toml_from_str_doc s d hd]; exact htoml
  rcases decodeDoc_ok_split d c hdoc with ⟨c1, htop, hsec⟩
  have h1 : c1.connections = Config.default.connections :=
    topFold_connections d.top Config.default c1 htop
  have h2 : c.connections = c1.connections := by
    refine sectionsFold_connections_of_absent d.sections ?_ c1 c hsec
    intro sec hs hcontr
    exact habs sec.2 (by rw [← hcontr]; simpa using hs)
  rw [h2, h1]
  rfl

/-- C2 witness: the amended claim at the empty input. -/
theorem claim2_witness :
    from_str "" = .ok Config.default ∧ tomlParse "" = .ok ⟨[], []⟩ ∧
    toml.from_str "" = .ok Config.default ∧ Config.default.connections = Connections.default := by
  refine ⟨rfl, rfl, ?_⟩
  exact claim2_loader_returns_unresolved "" Config.default ⟨[], []⟩ rfl rfl (by simp)


/-- C3: `from_file` first reads the file, returning `Error::IOError` with
the I/O failure detail when the read fails; otherwise it delegates to
`from_str`, whose parse failure surfaces as `Error::ParseError`; each
failure aborts the load with that single error and no configuration. -/
theorem claim3_from_file_error_pipeline (fs : FileSys) (p : String) :
    (∀ e, fs p = .error e → from_file fs p = .error (Error.IOError e)) ∧
    (∀ t, fs p = .ok t → from_file fs p = from_str t) ∧
    (∀ t e, fs p = .ok t → toml.from_str t = .error e →
      from_file fs p = .error (Error.ParseError e)) := by
  refine ⟨?_, ?_, ?_⟩
  · intro e he
    unfold from_file read_file_contents
    rw [he]
  · intro t ht
    unfold from_file read_file_contents
    rw [ht]
  · intro t e ht hp
    unfold from_file read_file_contents
    rw [ht]
    show (toml.from_str t).mapError Error.ParseError = _
    rw [hp]
    rfl

/-- C3 witness: a failing read gives `IOError`; a read of text with a bad
environment token gives `ParseError`. -/
theorem claim3_witness :
    ((fun _ => .error "file not found" : FileSys) "witnet.toml" = .error "file not found" ∧
      from_file (fun _ => .error "file not found") "witnet.toml" =
        .error (Error.IOError "file not found")) ∧
    ((fun _ => .ok "environment = 'wrong'" : FileSys) "witnet.toml" = .ok "environment = 'wrong'" ∧
      toml.from_str "environment = 'wrong'" = .error "unknown environment wrong" ∧
      from_file (fun _ => .ok "environment = 'wrong'") "witnet.toml" =
        .error (Error.ParseError "unknown environment wrong")) :=
  ⟨⟨rfl, (claim3_from_file_error_pipeline (fun _ => .error "file not found") "witnet.toml").1
      "file not found" rfl⟩,
   ⟨rfl, rfl, (claim3_from_file_error_pipeline (fun _ => .ok "environment = 'wrong'")
      "witnet.toml").2.2 "environment = 'wrong'" "unknown environment wrong" rfl rfl⟩⟩

/-- C4: the schema is strict — whenever the parsed document contains an
unknown top-level key, an unknown table, or an unrecognized field inside a
table, `from_str` fails with a `ParseError`. -/
theorem claim4_strict_schema (s : String) (d : TomlDoc) (hd : tomlParse s = .ok d)
    (hbad : (∃ kv ∈ d.top, allowedTopKey kv.1 = false) ∨
            (∃ sec ∈ d.sections, allowedSection sec.1 = false) ∨
            (∃ sec ∈ d.sections, ∃ kv ∈ sec.2, allowedField sec.1 kv.1 = false)) :
    ∃ e, from_str s = .error (Error.ParseError e) := by
  apply from_str_error_of
  rw [toml_from_str_doc s d hd]
  rcases hbad with ⟨kv, hmem, hk⟩ | ⟨sec, hmem, hk⟩ | ⟨sec, hmem, kv, hkv, hk⟩
  · apply decodeDoc_error_of_top
    apply foldlM_error_of_mem decodeTopField d.top kv hmem
    intro st
    refine ⟨"unknown field " ++ kv.1, ?_⟩
    unfold decodeTopField
    rw [if_neg (by simpa [allowedTopKey] using hk)]
  · apply decodeDoc_error_of_sections
    intro c
    exact foldlM_error_of_mem decodeSection d.sections sec hmem
      (fun c' => decodeSection_error_of_not_allowed sec hk c') c
  · apply decodeDoc_error_of_sections
    intro c
    exact foldlM_error_of_mem decodeSection d.sections sec hmem
      (fun c' => decodeSection_error_of_bad_field sec kv hkv hk c') c

/-- C4 witness: an unknown field in `[connections]`, an unknown table, and
an unknown top-level key each produce a `ParseError`. -/
theorem claim4_witness :
    (tomlParse "[connections]
peers_period = 1" = .ok ⟨[], [("connections", [("peers_period", .int 1)])]⟩ ∧
      ∃ e, from_str "[connections]
peers_period = 1" = .error (Error.ParseError e)) ∧
    (tomlParse "[telemetry]" = .ok ⟨[], [("telemetry", [])]⟩ ∧
      ∃ e, from_str "[telemetry]" = .error (Error.ParseError e)) ∧
    (tomlParse "version = 2" = .ok ⟨[("version", .int 2)], []⟩ ∧
      ∃ e, from_str "version = 2" = .error (Error.ParseError e)) := by
  refine ⟨⟨rfl, ?_⟩, ⟨rfl, ?_⟩, ⟨rfl, ?_⟩⟩
  · exact claim4_strict_schema _ ⟨[], [("connections", [("peers_period", .int 1)])]⟩ rfl
      (Or.inr (Or.inr ⟨("connections", [("peers_period", .int 1)]), by simp,
        ("peers_period", .int 1), by simp, rfl⟩))
  · exact claim4_strict_schema _ ⟨[], [("telemetry", [])]⟩ rfl
      (Or.inr (Or.inl ⟨("telemetry", []), by simp, rfl⟩))
  · exact claim4_strict_schema _ ⟨[("version", .int 2)], []⟩ rfl
      (Or.inl ⟨("version", .int 2), by simp, rfl⟩)

/-- C5: the input setting `environment` to a token outside the accepted set
fails with a `ParseError` (and never an `IOError`), while the accepted
token `mainnet` loads as `Environment::Mainnet`. -/
theorem claim5_environment_token :
    from_str "environment = \"wrong-token\"" =
      .error (Error.ParseError "unknown environment wrong-token") ∧
    from_str "environment = 'mainnet'" =
      .ok { Config.default with environment := Environment.Mainnet } :=
  ⟨rfl, rfl⟩

/-- C6: the three `_seconds` integer fields of `[connections]` load as
canonical durations of 11, 7 and 21 seconds, and the omitted duration
fields resolve to the documented defaults, none of which is zero. -/
theorem claim6_durations :
    (from_str "
[connections]
bootstrap_peers_period_seconds = 11
storage_peers_period_seconds = 7
handshake_timeout_seconds = 21
" = .ok { connections := { bootstrap_peers_period := some (Duration.from_secs 11),
                           storage_peers_period := some (Duration.from_secs 7),
                           handshake_timeout := some (Duration.from_secs 21) } }) ∧
    (resolve Config.default).connections.bootstrap_peers_period = Defaults.bootstrap_peers_period ∧
    (resolve Config.default).connections.storage_peers_period = Defaults.storage_peers_period ∧
    (resolve Config.default).connections.handshake_timeout = Defaults.handshake_timeout ∧
    0 < Defaults.bootstrap_peers_period.secs ∧
    0 < Defaults.storage_peers_period.secs ∧
    0 < Defaults.handshake_timeout.secs := by
  refine ⟨rfl, rfl, rfl, rfl, ?_, ?_, ?_⟩ <;> decide

/-- C7: `[connections]` with `server_addr` and one known peer loads the
parsed address and a one-element peer list; an empty `[connections]`
section loads the default section with an empty peer list. -/
theorem claim7_connections :
    (from_str "
[connections]
server_addr = '127.0.0.1:1234'
known_peers = ['192.168.1.12:1234']
" = .ok { connections := { server_addr := some ⟨"127.0.0.1", 1234⟩,
                           known_peers := [⟨"192.168.1.12", 1234⟩] } }) ∧
    parseSockAddr "127.0.0.1:1234" = .ok ⟨"127.0.0.1", 1234⟩ ∧
    [(⟨"192.168.1.12", 1234⟩ : SockAddr)].length = 1 ∧
    from_str "[connections]" = .ok Config.default ∧
    Config.default.connections = Connections.default ∧
    Connections.default.known_peers = [] :=
  ⟨rfl, rfl, rfl, rfl, rfl, rfl⟩

/-- C8: loading is a deterministic pure transformation — equal input texts
give equal results (same Ok configuration or same error). -/
theorem claim8_deterministic (s1 s2 : String) (h : s1 = s2) :
    from_str s1 = from_str s2 := by rw [h]

/-- C8 witness: the determinism theorem at a concrete input. -/
theorem claim8_witness :
    "environment = 'mainnet'" = "environment = 'mainnet'" ∧
    from_str "environment = 'mainnet'" = from_str "environment = 'mainnet'" :=
  ⟨rfl, claim8_deterministic "environment = 'mainnet'" "environment = 'mainnet'" rfl⟩

/-- C9: for every path whose contents read successfully as text `t`,
`from_file` returns exactly `from_str t` — the file entry point is the
composition of the full read with the text parser. -/
theorem claim9_from_file_is_read_then_parse (fs : FileSys) (p t : String)
    (h : fs p = .ok t) : from_file fs p = from_str t := by
  unfold from_file read_file_contents
  rw [h]

/-- C9 witness: the refinement theorem on a concrete file system. -/
theorem claim9_witness :
    ((fun _ => .ok "[storage]" : FileSys) "config.toml" = .ok "[storage]") ∧
    from_file (fun _ => .ok "[storage]") "config.toml" = from_str "[storage]" :=
  ⟨rfl, claim9_from_file_is_read_then_parse (fun _ => .ok "[storage]") "config.toml"
    "[storage]" rfl⟩

/-- C10: the `environment` field of the loaded configuration is never
absent — any successfully parsed input that omits the `environment` key
yields a configuration whose `environment` is the concrete default
`Environment::Mainnet`, compared here without unwrapping an optional. -/
theorem claim10_environment_never_absent (s : String) (d : TomlDoc) (c : Config)
    (hd : tomlParse s = .ok d) (habs : ∀ v, ("environment", v) ∉ d.top)
    (hok : from_str s = .ok c) : c.environment = Environment.Mainnet := by
  have htoml : toml.from_str s = .ok c := (from_str_ok_iff s c).mp hok
  have hdoc : decodeDoc d = .ok c := by rw [← toml_from_str_doc s d hd]; exact htoml
  rcases decodeDoc_ok_split d c hdoc with ⟨c1, htop, hsec⟩
  have h1 : c1 = Config.default := topFold_ok_of_no_env d.top habs Config.default c1 htop
  have h2 : c.environment = c1.environment := sectionsFold_environment d.sections c1 c hsec
  rw [h2, h1]
  rfl

/-- C10 witness: an input setting only `connections.inbound_limit` loads
with `environment` equal to Mainnet. -/
theorem claim10_witness :
    tomlParse "[connections]
inbound_limit = 999" = .ok ⟨[], [("connections", [("inbound_limit", .int 999)])]⟩ ∧
    from_str "[connections]
inbound_limit = 999" = .ok { connections := { inbound_limit := some 999 } } ∧
    ({ connections := { inbound_limit := some 999 } } : Config).environment =
      Environment.Mainnet := by
  refine ⟨rfl, rfl, ?_⟩
  exact claim10_environment_never_absent "[connections]
inbound_limit = 999" ⟨[], [("connections", [("inbound_limit", .int 999)])]⟩
    { connections := { inbound_limit := some 999 } } rfl (by simp) rfl

end Witnet
